import Mathlib

/-!
Verification development for the palette-extraction pipeline of the
colorize-demo repository.

The pipeline variants live in `src/server/utils/compare.ts`,
`src/server/utils/imghsl.ts`, `src/server/utils/imageprocess.ts`
(`getColorPalette` and `detectSpotColors`), `src/server/utils/imageprocess3.ts`
and `src/unnamed/part_000`.  Each variant is embedded below as a pure Lean
function over a decoded RGBA byte buffer (`List ℕ`, 4 bytes per pixel).

External collaborators that are not part of the repository are passed in as
explicit function parameters:
* the perceptual distance (`chroma.deltaE` / `deltaE.getDeltaE00`, a
  CIEDE2000-family metric over floats) is a parameter
  `d : RGB → RGB → ℚ` (resp. `Lab → Lab → ℚ`);
* the `quantize` library is a parameter of type `QuantizeF`;
* the `ml-kmeans` library and the `d3-color` RGB↔LAB conversions of the
  centroid path are parameters of `detectSpotColors`.

JavaScript semantics mirrored by the embedding:
* `Map` and plain-object string keys iterate in insertion order, so histograms
  are association lists kept in insertion order;
* `Array.prototype.sort` is stable (ECMAScript 2019), so the comparator
  `(a, b) => b.count - a.count` is embedded as a stable insertion sort by the
  key, descending;
* reading past the end of a buffer yields `undefined`, and
  `undefined > 128` is false, so out-of-range reads are modelled by
  `List.getD` with default `0`, which also fails the alpha test.
-/

/-- An 8-bit RGB triple, the value `chroma(r, g, b)` is built from. -/
structure RGB where
  r : ℕ
  g : ℕ
  b : ℕ
deriving DecidableEq, Repr

/-- The packed integer equivalent of the lowercase `#rrggbb` hex string
produced by `chroma(...).hex()`.  Lexicographic order on fixed-width
lowercase hex strings coincides with numeric order of this key. -/
def RGB.toKey (c : RGB) : ℕ := c.r * 65536 + c.g * 256 + c.b

/-- A histogram entry: a color key together with its pixel count. -/
structure Entry where
  key : RGB
  count : ℕ
deriving DecidableEq, Repr

/-- A CIE-LAB triple, as used by the centroid path of `detectSpotColors`. -/
@[ext]
structure Lab where
  l : ℚ
  a : ℚ
  b : ℚ
deriving DecidableEq, Repr

/-- A centroid cluster of `detectSpotColors`: a LAB representative and the
number of samples assigned to it. -/
structure Cluster where
  lab : Lab
  pop : ℕ
deriving DecidableEq, Repr

/-- One element of the final result of `compare.ts`:
`{ hex_code, count, percent }`. -/
structure FinalEntry where
  hex : RGB
  count : ℕ
  percent : ℚ
deriving DecidableEq, Repr

/-- The external `quantize` library (photographic branch), abstracted:
given sampled pixels and a color budget it returns a palette, or `none`
for the falsy failure result the source turns into a rejection. -/
def QuantizeF : Type := List RGB → ℕ → Option (List RGB)

/-- The external `ml-kmeans` call of `detectSpotColors`, abstracted:
given LAB samples and `k` it returns centroids together with the
per-sample centroid indices, or `none` when the library throws. -/
def KmeansF : Type := List Lab → ℕ → Option (List Lab × List ℕ)

/-- Sampling loop `for (i = 0; i < data.length; i += step)` keeping pixels
with `data[i+3] > 128` (strict, as in every chroma-based variant). -/
def sampleGT (data : List ℕ) (step : ℕ) : List RGB :=
  (List.range data.length).filterMap fun i =>
    if i % step = 0 ∧ 128 < data.getD (i + 3) 0 then
      some ⟨data.getD i 0, data.getD (i + 1) 0, data.getD (i + 2) 0⟩
    else none

/-- Sampling loop of `detectSpotColors`, which keeps pixels with
`a >= ALPHA_THRESHOLD`, i.e. alpha `≥ 128` (non-strict, unlike the others). -/
def sampleGE (data : List ℕ) (step : ℕ) : List RGB :=
  (List.range data.length).filterMap fun i =>
    if i % step = 0 ∧ 128 ≤ data.getD (i + 3) 0 then
      some ⟨data.getD i 0, data.getD (i + 1) 0, data.getD (i + 2) 0⟩
    else none

/-- `map.set(key, (map.get(key) || 0) + n)` on an insertion-ordered
association list: bump the existing entry in place or append a new one. -/
def histAdd : List Entry → RGB → ℕ → List Entry
  | [], k, n => [⟨k, n⟩]
  | e :: t, k, n =>
    if e.key = k then { e with count := e.count + n } :: t
    else e :: histAdd t k n

/-- Build the exact-color histogram of a sample sequence (each sample
counts 1), in first-seen order, as the `colorCounts` Map of the source. -/
def buildHistogram (samples : List RGB) : List Entry :=
  samples.foldl (fun h c => histAdd h c 1) []

/-- Sum of the counts of a histogram. -/
def entrySum (l : List Entry) : ℕ := (l.map (·.count)).sum

/-- Stable descending insertion by key `f`: the new element goes after every
element with a strictly greater key and before the first element whose key
is `≤` its own, so elements with equal keys keep their original order. -/
def insertDescBy {α β : Type} [LinearOrder β] (f : α → β) (e : α) : List α → List α
  | [] => [e]
  | x :: xs => if f e < f x then x :: insertDescBy f e xs else e :: x :: xs

/-- Stable sort by key `f`, descending: the embedding of the JavaScript
`arr.sort((a, b) => f(b) - f(a))` (ECMAScript sort is stable). -/
def sortDescBy {α β : Type} [LinearOrder β] (f : α → β) : List α → List α
  | [] => []
  | x :: xs => insertDescBy f x (sortDescBy f xs)

/-- One entry of the snap-to-first-parent loop shared by the noise
clusterers: scan the parents in creation order, add the count of `e` to the
first parent `p` with `close e.key p.key` and stop, otherwise append `e`
as a new parent. -/
def snapStep (close : RGB → RGB → Bool) : List Entry → Entry → List Entry
  | [], e => [e]
  | p :: ps, e =>
    if close e.key p.key then { p with count := p.count + e.count } :: ps
    else p :: snapStep close ps e

/-- The generic noise clusterer: sort the histogram by count descending
(stable) and snap every entry onto the first close parent. -/
def clusterGen (close : RGB → RGB → Bool) (hist : List Entry) : List Entry :=
  (sortDescBy (·.count) hist).foldl (snapStep close) []

/-- One color of the greedy final-merge loop: the first color is always
kept, and a later color is kept only when it is not close to any already
accepted color. -/
def dedupStep (close : RGB → RGB → Bool) (acc : List RGB) (c : RGB) : List RGB :=
  if acc.isEmpty then acc ++ [c]
  else if acc.any fun p => close c p then acc
  else acc ++ [c]

/-- The greedy final-merge used by `part_000`, `imageprocess.ts` and
`imageprocess3.ts`: walk the dominance-sorted colors and keep a color only
when it is not close to any already accepted color.  Counts are not
re-aggregated at this stage. -/
def greedyDedup (close : RGB → RGB → Bool) (l : List RGB) : List RGB :=
  l.foldl (dedupStep close) []

/-- The saturation channel of `chroma(...).hsl()` (channels scaled to
`[0,1]`); an achromatic color yields `0`, never a NaN, matching both the
chroma behavior and the explicit `isNaN(s) ? 0 : s` guards in the source. -/
def saturation (c : RGB) : ℚ :=
  let r : ℚ := c.r / 255
  let g : ℚ := c.g / 255
  let b : ℚ := c.b / 255
  let mx := max r (max g b)
  let mn := min r (min g b)
  if mx = mn then 0
  else if mx + mn < 1 then (mx - mn) / (mx + mn)
  else (mx - mn) / (2 - (mx + mn))

/-- The lightness channel of `chroma(...).hsl()`. -/
def lightness (c : RGB) : ℚ :=
  let r : ℚ := c.r / 255
  let g : ℚ := c.g / 255
  let b : ℚ := c.b / 255
  (max r (max g b) + min r (min g b)) / 2

/-- The three-tier keep decision of `compare.ts` phase 3, with `s` the
saturation and `pct` the population fraction: the tiers are tested in
order and the first hit sets `kept` once. -/
def tierKept (s pct : ℚ) : Bool :=
  if 0.35 ≤ s ∧ 0.0001 ≤ pct then true
  else if 0.1 ≤ s ∧ 0.005 ≤ pct then true
  else if 0.015 ≤ pct then true
  else false

/-- The `getNearestColor` / design-matching scan: running minimum with a
strict `<` update, so the first palette entry attaining the minimal
distance wins; `none` exactly when the palette is empty. -/
def nearestInPalette (d : RGB → RGB → ℚ) (pal : List RGB) (c : RGB) : Option RGB :=
  (pal.foldl
    (fun best p =>
      match best with
      | none => some (p, d c p)
      | some bp => if d c p < bp.2 then some (p, d c p) else best)
    none).map (·.1)

/-- `+(x).toFixed(2)` on the nonnegative percentages produced by
`compare.ts`: round to two decimal places. -/
def round2 (q : ℚ) : ℚ := (⌊q * 100 + 1 / 2⌋ : ℚ) / 100

/-- Count lookup `paletteCounts.get(colorStr) || 0` on an association list. -/
def lookupCount (l : List Entry) (k : RGB) : ℕ :=
  ((l.find? fun e => e.key = k).map (·.count)).getD 0

namespace Compare

/-- Phase 2 of `compare.ts`: noise clustering at threshold 12 on the raw
(unfloored) `chroma.deltaE` value. -/
def clusterNoise (d : RGB → RGB → ℚ) (hist : List Entry) : List Entry :=
  clusterGen (fun a b => decide (d a b ≤ 12)) hist

/-- Phase 4 of `compare.ts`: eliminate duplicates at threshold 5 on the raw
distance, adding the count of a dropped color to the first close survivor
(the survivor keeps its own hex). -/
def cleanDuplicates (d : RGB → RGB → ℚ) (naturals : List Entry) : List Entry :=
  naturals.foldl (snapStep fun a b => decide (d a b ≤ 5)) []

/-- `getColorPaletteHSL` of `compare.ts` from the decoded RGBA buffer on:
histogram at stride 10 pixels, noise clustering, three-tier filter,
duplicate elimination, then snapping to the externally supplied design
palette with aggregated counts and percentages. -/
def getColorPaletteHSL (d : RGB → RGB → ℚ) (design : List RGB) (data : List ℕ) :
    Except String (List FinalEntry) :=
  let samples := sampleGT data 40
  let total := samples.length
  if total = 0 then .ok []
  else
    let hist := buildHistogram samples
    let clustered := clusterNoise d hist
    let naturals := clustered.filter fun e =>
      tierKept (saturation e.key) ((e.count : ℚ) / total)
    let cleaned := cleanDuplicates d (sortDescBy (·.count) naturals)
    let finalCounts := cleaned.foldl
      (fun fc e =>
        match nearestInPalette d design e.key with
        | some dh => histAdd fc dh e.count
        | none => fc)
      []
    let result := finalCounts.map fun e =>
      FinalEntry.mk e.key e.count (round2 ((e.count : ℚ) / total * 100))
    .ok (sortDescBy (·.percent) result)

end Compare

namespace ImgHSL

/-- The HSL pre-filter of `imghsl.ts` phase 1 (photographic branch only):
keep colorful, true-white or true-black pixels. -/
def hslKeep (c : RGB) : Bool :=
  let s := saturation c
  let l := lightness c
  decide (0.15 ≤ s) || (decide (s < 0.15) && decide (0.9 < l)) ||
    (decide (s < 0.15) && decide (l < 0.1))

/-- Phase 2 of `imghsl.ts`: noise clustering at strict threshold 5 on the
floored weighted distance `Math.floor(chroma.deltaE(..., Kl, Kc, Kh))`. -/
def clusterNoise (d : RGB → RGB → ℚ) (hist : List Entry) : List Entry :=
  clusterGen (fun a b => decide (⌊d a b⌋ ≤ (5 : ℤ))) hist

/-- `getColorPalette` of `imghsl.ts` from the decoded RGBA buffer on:
dense sampling (every pixel), early empty return, quantize branch for
photographic images, and for SpotColor the cluster / 1.5%-frequency-filter
pipeline.  `numColors` is only ever passed to `quantize`. -/
def getColorPalette (d : RGB → RGB → ℚ) (qF : QuantizeF) (imageType : String)
    (data : List ℕ) (numColors : ℕ) : Except String (List RGB) :=
  let samples := sampleGT data 4
  let total := samples.length
  if total = 0 then .ok []
  else if imageType ≠ "SpotColor" then
    match qF (samples.filter hslKeep) numColors with
    | none => .error "Failed to quantize colors"
    | some palette => .ok palette
  else
    let clustered := clusterNoise d (buildHistogram samples)
    let frequent := clustered.filter fun e =>
      decide ((total : ℚ) * 0.015 ≤ (e.count : ℚ))
    .ok ((sortDescBy (·.count) frequent).map (·.key))

end ImgHSL

namespace Part000

/-- The HSL pre-filter of `part_000` (photographic branch only), with the
stricter 0.3 saturation floor of that variant. -/
def hslKeep (c : RGB) : Bool :=
  let s := saturation c
  let l := lightness c
  decide (0.3 ≤ s) || (decide (s < 0.3) && decide (0.9 < l)) ||
    (decide (s < 0.3) && decide (l < 0.1))

/-- Phase 2 of `part_000`: noise clustering at threshold 15 on the floored
weighted distance. -/
def clusterNoise (d : RGB → RGB → ℚ) (hist : List Entry) : List Entry :=
  clusterGen (fun a b => decide (⌊d a b⌋ ≤ (15 : ℤ))) hist

/-- Phase 4 of `part_000`: the final perceptual merge at threshold 15 on
the floored weighted distance; a close color is a duplicate and is dropped. -/
def finalCluster (d : RGB → RGB → ℚ) (l : List RGB) : List RGB :=
  greedyDedup (fun c p => decide (⌊d c p⌋ ≤ (15 : ℤ))) l

/-- `getColorPaletteHSL` of `src/unnamed/part_000` from the decoded RGBA
buffer on: stride-10 sampling, noise clustering at threshold 15, the
dominant + accent filter (1.5% dominance, top 3 accents with saturation
`≥ 0.3`), and the final perceptual merge. -/
def getColorPaletteHSL (d : RGB → RGB → ℚ) (qF : QuantizeF) (imageType : String)
    (data : List ℕ) (numColors : ℕ) : Except String (List RGB) :=
  let samples := sampleGT data 40
  let total := samples.length
  if total = 0 then .ok []
  else if imageType ≠ "SpotColor" then
    match qF (samples.filter hslKeep) numColors with
    | none => .error "Failed to quantize colors"
    | some palette => .ok palette
  else
    let clustered := clusterNoise d (buildHistogram samples)
    let dominant := clustered.filter fun e =>
      decide ((total : ℚ) * 0.015 ≤ (e.count : ℚ))
    let accents := clustered.filter fun e =>
      decide ((e.count : ℚ) < (total : ℚ) * 0.015) &&
        decide ((0.3 : ℚ) ≤ saturation e.key)
    let frequent := dominant ++ (sortDescBy (·.count) accents).take 3
    .ok (finalCluster d ((sortDescBy (·.count) frequent).map (·.key)))

end Part000

namespace ImageProcess

/-- `getColorPalette` of `imageprocess.ts` from the decoded RGBA buffer on.
There is no zero-sample guard in this variant: the sampled pixel array goes
straight to `quantize`, whose falsy failure result is turned into the
rejection `"Failed to quantize colors"`.  The SpotColor branch then votes
each sampled pixel to its nearest palette color, filters by
`min(300, ⌊0.5%⌋)` occurrences and merges at floored threshold 10. -/
def getColorPalette (d : RGB → RGB → ℚ) (qF : QuantizeF) (imageType : String)
    (data : List ℕ) (numColors : ℕ) : Except String (List RGB) :=
  let pixelArray := sampleGT data 40
  match qF pixelArray numColors with
  | none => .error "Failed to quantize colors"
  | some palette =>
    if imageType ≠ "SpotColor" then .ok palette
    else
      let paletteCounts := pixelArray.foldl
        (fun pc c =>
          match nearestInPalette d palette c with
          | some p => histAdd pc p 1
          | none => pc)
        []
      let n : ℕ :=
        if (0.005 : ℚ) * pixelArray.length < 300 then
          (⌊(0.005 : ℚ) * pixelArray.length⌋).toNat
        else 300
      let sortedPalette :=
        (sortDescBy (·.count) paletteCounts).filter fun e => decide (n ≤ e.count)
      .ok (greedyDedup (fun c p => decide (⌊d c p⌋ ≤ (10 : ℤ)))
        (sortedPalette.map (·.key)))

end ImageProcess

namespace ImageProcess3

/-- `getColorPalette` of the first staged document of `imageprocess3.ts`
(the hybrid variant) from the decoded RGBA buffer on: stride-2 sampling,
early empty return, quantize candidates, per-pixel voting to the nearest
candidate, a strict `> 1%` vote filter, and the final merge at floored
threshold 15. -/
def getColorPalette (d : RGB → RGB → ℚ) (qF : QuantizeF) (imageType : String)
    (data : List ℕ) (numColors : ℕ) : Except String (List RGB) :=
  let pixelArray := sampleGT data 8
  if pixelArray.length = 0 then .ok []
  else if imageType ≠ "SpotColor" then
    match qF pixelArray numColors with
    | none => .error "Failed to quantize colors"
    | some palette => .ok palette
  else
    match qF pixelArray numColors with
    | none =>
      match qF pixelArray 2 with
      | none => .error "Failed to quantize colors"
      | some fallback => .ok fallback
    | some candidate =>
      let paletteCounts := pixelArray.foldl
        (fun pc c =>
          match nearestInPalette d candidate c with
          | some p => histAdd pc p 1
          | none => pc)
        []
      let weighted := (paletteCounts.filter fun e =>
        decide ((0.01 : ℚ) < (e.count : ℚ) / pixelArray.length)).map (·.key)
      let weightedSorted := sortDescBy (lookupCount paletteCounts) weighted
      .ok (greedyDedup (fun c p => decide (⌊d c p⌋ ≤ (15 : ℤ))) weightedSorted)

end ImageProcess3

namespace ImageProcess3B

/-- `getColorPalette` of the second staged document of `imageprocess3.ts`
(the MODIFIED SPOTCOLOR LOGIC variant, after the separator) from the
decoded RGBA buffer on: stride-10 sampling with no zero-sample guard; the
non-SpotColor branch goes straight to `quantize` and turns its falsy
failure into the rejection `"Failed to quantize colors"`, while the
SpotColor branch filters the exact histogram by `min(300, ⌊0.5%⌋)`
occurrences, sorts by count descending and merges at floored threshold 20. -/
def getColorPalette (d : RGB → RGB → ℚ) (qF : QuantizeF) (imageType : String)
    (data : List ℕ) (numColors : ℕ) : Except String (List RGB) :=
  let pixelArray := sampleGT data 40
  if imageType ≠ "SpotColor" then
    match qF pixelArray numColors with
    | none => .error "Failed to quantize colors"
    | some palette => .ok palette
  else
    let hist := buildHistogram pixelArray
    let n : ℕ :=
      if (0.005 : ℚ) * pixelArray.length < 300 then
        (⌊(0.005 : ℚ) * pixelArray.length⌋).toNat
      else 300
    let dominant := sortDescBy (·.count) (hist.filter fun e => decide (n ≤ e.count))
    .ok (greedyDedup (fun c p => decide (⌊d c p⌋ ≤ (20 : ℤ))) (dominant.map (·.key)))

end ImageProcess3B

namespace DetectSpot

/-- The stage-5 merge update of `detectSpotColors`: the merged cluster
takes the population-weighted average of the two LAB representatives. -/
def mergeInto (m c : Cluster) : Cluster :=
  { lab :=
      { l := (m.lab.l * m.pop + c.lab.l * c.pop) / (m.pop + c.pop)
        a := (m.lab.a * m.pop + c.lab.a * c.pop) / (m.pop + c.pop)
        b := (m.lab.b * m.pop + c.lab.b * c.pop) / (m.pop + c.pop) }
    pop := m.pop + c.pop }

/-- One cluster of the stage-5 loop: merge into the first already accepted
cluster at raw (unfloored) distance strictly below 10, else append. -/
def mergeStep (dist : Lab → Lab → ℚ) : List Cluster → Cluster → List Cluster
  | [], c => [c]
  | m :: rest, c =>
    if dist c.lab m.lab < 10 then mergeInto m c :: rest
    else m :: mergeStep dist rest c

/-- The stage-5 merge loop over all population-filtered clusters. -/
def mergeCentroids (dist : Lab → Lab → ℚ) (l : List Cluster) : List Cluster :=
  l.foldl (mergeStep dist) []

/-- Stage 5 of `detectSpotColors` up to hex conversion: sort by population,
merge perceptually, sort by population again. -/
def curate (dist : Lab → Lab → ℚ) (filtered : List Cluster) : List Cluster :=
  sortDescBy (·.pop) (mergeCentroids dist (sortDescBy (·.pop) filtered))

/-- Hex conversion and the final `numColors` slice:
`if (numColors && numColors > 0) slice(0, numColors)`. -/
def finalizePalette (l2h : Lab → RGB) (curated : List Cluster)
    (numColors : Option ℕ) : List RGB :=
  let pal := curated.map fun c => l2h c.lab
  match numColors with
  | some n => if 0 < n then pal.take n else pal
  | none => pal

/-- `detectSpotColors` of `imageprocess.ts` from the decoded RGBA buffer
on, with the external RGB→LAB conversion, k-means run and LAB→hex
conversion as parameters.  Every failure path returns the empty palette. -/
def detectSpotColors (r2l : RGB → Lab) (kF : KmeansF) (dist : Lab → Lab → ℚ)
    (l2h : Lab → RGB) (imageType : String) (data : List ℕ)
    (numColors : Option ℕ) : List RGB :=
  if imageType = "FullColor" then []
  else
    let labPixels := (sampleGE data 40).map r2l
    let validPixelCount := labPixels.length
    if validPixelCount = 0 then []
    else
      match kF labPixels (min 32 validPixelCount) with
      | none => []
      | some (centroids, assignments) =>
        let clusters := centroids.enum.map fun ic =>
          Cluster.mk ic.2 (assignments.count ic.1)
        let filtered := clusters.filter fun c =>
          decide ((validPixelCount : ℚ) * 0.01 ≤ (c.pop : ℚ))
        if filtered.length = 0 then []
        else finalizePalette l2h (curate dist filtered) numColors

end DetectSpot

/-- Modelled from the spec: §7 names quantizer failure on degenerate input
(for example no pixels after reduction) a ClusteringError.  The external
`quantize` library, which is not part of this repository, returns a falsy
result when given an empty pixel array or a color budget below 2; the
palette it returns on success is not load-bearing for any claim here. -/
def quantizeModel : QuantizeF := fun pixels n =>
  if pixels.length = 0 ∨ n < 2 then none else some (pixels.take n)

/-- The constantly-zero distance, a concrete stand-in used to exercise the
pipelines on inputs whose pairwise distances are all below threshold. -/
def dZero : RGB → RGB → ℚ := fun _ _ => 0

/-- The constantly-100 distance, a concrete stand-in used to exercise the
pipelines on inputs whose pairwise distances are all above threshold. -/
def dHundred : RGB → RGB → ℚ := fun _ _ => 100

/-- A constant distance of exactly 12 (the compare.ts cluster threshold). -/
def dTwelve : RGB → RGB → ℚ := fun _ _ => 12

/-- A constant distance of 12.5: same floor as `dTwelve`, but on the other
side of the raw comparison with threshold 12. -/
def dTwelveHalf : RGB → RGB → ℚ := fun _ _ => 25 / 2

/-- A concrete symmetric pseudometric on LAB (lightness difference), used
to exercise the centroid-path merge. -/
def distLab (x y : Lab) : ℚ := |x.l - y.l|

/-- A concrete distance on RGB (red-channel difference), symmetric, used
to instantiate theorems that assume a symmetric metric. -/
def dRed (x y : RGB) : ℚ := |(x.r : ℚ) - y.r|

/-- The always-close predicate, a concrete parent-matching stand-in. -/
def closeAll : RGB → RGB → Bool := fun _ _ => true

/-- A concrete RGB→LAB stand-in for the external d3-color conversion. -/
def rgbToLabZero : RGB → Lab := fun _ => ⟨0, 0, 0⟩

/-- A concrete LAB→RGB stand-in for the external d3-color conversion. -/
def labToRgbZero : Lab → RGB := fun _ => ⟨0, 0, 0⟩

/-- A concrete k-means stand-in that always fails. -/
def kmeansNone : KmeansF := fun _ _ => none

/-! ## Helper lemmas -/

theorem insertDescBy_perm {α β : Type} [LinearOrder β] (f : α → β) (e : α) :
    ∀ l : List α, List.Perm (insertDescBy f e l) (e :: l)
  | [] => by simp [insertDescBy]
  | x :: xs => by
    by_cases h : f e < f x
    · simpa [insertDescBy, h] using
        ((insertDescBy_perm f e xs).cons x).trans (List.Perm.swap e x xs)
    · simp [insertDescBy, h]

theorem sortDescBy_perm {α β : Type} [LinearOrder β] (f : α → β) :
    ∀ l : List α, List.Perm (sortDescBy f l) l
  | [] => by simp [sortDescBy]
  | x :: xs => by
    simpa [sortDescBy] using
      ((insertDescBy_perm f x (sortDescBy f xs)).trans
        ((sortDescBy_perm f xs).cons x))

theorem mem_insertDescBy {α β : Type} [LinearOrder β] {f : α → β} {e a : α}
    {l : List α} (h : a ∈ insertDescBy f e l) : a = e ∨ a ∈ l := by
  have := (insertDescBy_perm f e l).mem_iff.mp h
  simpa using this

theorem pairwise_insertDescBy {α β : Type} [LinearOrder β] (f : α → β) (e : α) :
    ∀ {l : List α}, l.Pairwise (fun a b => f b ≤ f a) →
      (insertDescBy f e l).Pairwise (fun a b => f b ≤ f a) := by
  intro l
  induction l with
  | nil => intro _; simp [insertDescBy]
  | cons x xs ih =>
    intro h
    rcases List.pairwise_cons.mp h with ⟨hx, hxs⟩
    by_cases hlt : f e < f x
    · rw [insertDescBy, if_pos hlt]
      refine List.pairwise_cons.mpr ⟨fun y hy => ?_, ih hxs⟩
      rcases mem_insertDescBy hy with rfl | hy'
      · exact le_of_lt hlt
      · exact hx y hy'
    · rw [insertDescBy, if_neg hlt]
      refine List.pairwise_cons.mpr ⟨fun y hy => ?_, h⟩
      rcases List.mem_cons.mp hy with rfl | hy'
      · exact not_lt.mp hlt
      · exact le_trans (hx y hy') (not_lt.mp hlt)

theorem sortDescBy_pairwise {α β : Type} [LinearOrder β] (f : α → β) :
    ∀ l : List α, (sortDescBy f l).Pairwise (fun a b => f b ≤ f a)
  | [] => by simp [sortDescBy]
  | x :: xs => by
    rw [sortDescBy]
    exact pairwise_insertDescBy f x (sortDescBy_pairwise f xs)

theorem filter_insertDescBy {α β : Type} [LinearOrder β] (f : α → β) (c : β) (e : α) :
    ∀ l : List α,
      (insertDescBy f e l).filter (fun x => decide (f x = c)) =
        if f e = c then e :: l.filter (fun x => decide (f x = c))
        else l.filter (fun x => decide (f x = c))
  | [] => by
    by_cases hc : f e = c <;> simp [insertDescBy, List.filter_cons, hc]
  | x :: xs => by
    by_cases hlt : f e < f x
    · rw [insertDescBy, if_pos hlt, List.filter_cons]
      by_cases hc : f e = c
      · have hxc : ¬ f x = c := by
          intro hx
          rw [hx, ← hc] at hlt
          exact lt_irrefl _ hlt
        have hb : ¬ (decide (f x = c) = true) := by simp [hxc]
        rw [if_neg hb, filter_insertDescBy f c e xs, if_pos hc, if_pos hc,
          List.filter_cons, if_neg hb]
      · rw [filter_insertDescBy f c e xs, if_neg hc, if_neg hc, List.filter_cons]
    · rw [insertDescBy, if_neg hlt, List.filter_cons]
      by_cases hc : f e = c
      · rw [if_pos (by simp [hc]), if_pos hc]
      · rw [if_neg (by simp [hc]), if_neg hc]

theorem sortDescBy_filter {α β : Type} [LinearOrder β] (f : α → β) (c : β) :
    ∀ l : List α,
      (sortDescBy f l).filter (fun x => decide (f x = c)) =
        l.filter (fun x => decide (f x = c))
  | [] => by simp [sortDescBy]
  | x :: xs => by
    rw [sortDescBy, filter_insertDescBy, sortDescBy_filter f c xs, List.filter_cons]
    by_cases hc : f x = c <;> simp [hc]

theorem entrySum_sortDescBy (f : Entry → ℕ) (l : List Entry) :
    entrySum (sortDescBy f l) = entrySum l := by
  unfold entrySum
  exact List.Perm.sum_eq (List.Perm.map _ (sortDescBy_perm f l))

theorem snapStep_entrySum (close : RGB → RGB → Bool) :
    ∀ (ps : List Entry) (e : Entry),
      entrySum (snapStep close ps e) = entrySum ps + e.count
  | [], e => by simp [snapStep, entrySum]
  | p :: ps, e => by
    by_cases h : close e.key p.key
    · simp only [snapStep, if_pos h, entrySum, List.map_cons, List.sum_cons]
      omega
    · have ih := snapStep_entrySum close ps e
      simp only [snapStep, if_neg h, entrySum, List.map_cons, List.sum_cons] at *
      omega

theorem foldl_snapStep_entrySum (close : RGB → RGB → Bool) :
    ∀ (l : List Entry) (acc : List Entry),
      entrySum (l.foldl (snapStep close) acc) = entrySum acc + entrySum l
  | [], acc => by simp [entrySum]
  | e :: l, acc => by
    have ih := foldl_snapStep_entrySum close l (snapStep close acc e)
    simp only [List.foldl_cons] at *
    rw [ih, snapStep_entrySum]
    simp only [entrySum, List.map_cons, List.sum_cons]
    omega

theorem clusterGen_entrySum (close : RGB → RGB → Bool) (hist : List Entry) :
    entrySum (clusterGen close hist) = entrySum hist := by
  rw [clusterGen, foldl_snapStep_entrySum, entrySum_sortDescBy]
  simp [entrySum]

theorem histAdd_entrySum : ∀ (h : List Entry) (k : RGB) (n : ℕ),
    entrySum (histAdd h k n) = entrySum h + n
  | [], k, n => by simp [histAdd, entrySum]
  | e :: t, k, n => by
    by_cases hk : e.key = k
    · simp only [histAdd, if_pos hk, entrySum, List.map_cons, List.sum_cons]
      omega
    · have ih := histAdd_entrySum t k n
      simp only [histAdd, if_neg hk, entrySum, List.map_cons, List.sum_cons] at *
      omega

theorem foldl_histAdd_entrySum :
    ∀ (samples : List RGB) (acc : List Entry),
      entrySum (samples.foldl (fun h c => histAdd h c 1) acc) =
        entrySum acc + samples.length
  | [], acc => by simp
  | c :: samples, acc => by
    have ih := foldl_histAdd_entrySum samples (histAdd acc c 1)
    simp only [List.foldl_cons, List.length_cons] at *
    rw [ih, histAdd_entrySum]
    omega

theorem buildHistogram_entrySum (samples : List RGB) :
    entrySum (buildHistogram samples) = samples.length := by
  rw [buildHistogram, foldl_histAdd_entrySum]
  simp [entrySum]

theorem snapStep_keys (close : RGB → RGB → Bool) :
    ∀ (ps : List Entry) (e : Entry),
      (snapStep close ps e).map (·.key) =
        if ps.any (fun p => close e.key p.key) then ps.map (·.key)
        else ps.map (·.key) ++ [e.key]
  | [], e => by simp [snapStep]
  | p :: ps, e => by
    have ih := snapStep_keys close ps e
    by_cases h : close e.key p.key
    · simp [snapStep, h]
    · have hf : close e.key p.key = false := by simpa using h
      cases hany : ps.any (fun q => close e.key q.key) <;>
        simp [snapStep, hf, ih, hany, List.any_cons]

theorem dedupStep_pairwise (close : RGB → RGB → Bool) (acc : List RGB) (c : RGB)
    (h : acc.Pairwise fun x y => close y x = false) :
    (dedupStep close acc c).Pairwise fun x y => close y x = false := by
  unfold dedupStep
  by_cases hemp : acc.isEmpty
  · rw [if_pos hemp]
    rw [List.isEmpty_iff] at hemp
    subst hemp
    simp
  · rw [if_neg hemp]
    by_cases hany : acc.any fun p => close c p
    · rwa [if_pos hany]
    · rw [if_neg hany]
      refine List.pairwise_append.mpr ⟨h, List.pairwise_singleton _ _, ?_⟩
      intro a ha b hb
      rw [List.mem_singleton] at hb
      rw [hb]
      have hfalse : (acc.any fun p => close c p) = false := by simpa using hany
      have := List.any_eq_false.mp hfalse a ha
      simpa using this

theorem foldl_dedupStep_pairwise (close : RGB → RGB → Bool) :
    ∀ (l : List RGB) (acc : List RGB),
      (acc.Pairwise fun x y => close y x = false) →
      ((l.foldl (dedupStep close) acc).Pairwise fun x y => close y x = false)
  | [], acc, h => h
  | c :: l, acc, h => by
    simp only [List.foldl_cons]
    exact foldl_dedupStep_pairwise close l _ (dedupStep_pairwise close acc c h)

theorem greedyDedup_pairwise (close : RGB → RGB → Bool) (l : List RGB) :
    (greedyDedup close l).Pairwise fun x y => close y x = false :=
  foldl_dedupStep_pairwise close l [] (List.Pairwise.nil)

theorem clusterGen_congr {close1 close2 : RGB → RGB → Bool}
    (h : ∀ a b, close1 a b = close2 a b) (hist : List Entry) :
    clusterGen close1 hist = clusterGen close2 hist := by
  have : close1 = close2 := funext fun a => funext fun b => h a b
  rw [this]

theorem greedyDedup_congr {close1 close2 : RGB → RGB → Bool}
    (h : ∀ a b, close1 a b = close2 a b) (l : List RGB) :
    greedyDedup close1 l = greedyDedup close2 l := by
  have : close1 = close2 := funext fun a => funext fun b => h a b
  rw [this]

theorem sampleGT_eq_nil (data : List ℕ) (step : ℕ) (hstep : step % 4 = 0)
    (h : ∀ i, data.getD (4 * i + 3) 0 < 128) : sampleGT data step = [] := by
  refine List.filterMap_eq_nil_iff.mpr fun i _ => ?_
  rw [if_neg]
  rintro ⟨h1, h2⟩
  obtain ⟨m, rfl⟩ : 4 ∣ i :=
    dvd_trans (Nat.dvd_of_mod_eq_zero hstep) (Nat.dvd_of_mod_eq_zero h1)
  exact absurd h2 (by have := h m; omega)

theorem sampleGE_eq_nil (data : List ℕ) (step : ℕ) (hstep : step % 4 = 0)
    (h : ∀ i, data.getD (4 * i + 3) 0 < 128) : sampleGE data step = [] := by
  refine List.filterMap_eq_nil_iff.mpr fun i _ => ?_
  rw [if_neg]
  rintro ⟨h1, h2⟩
  obtain ⟨m, rfl⟩ : 4 ∣ i :=
    dvd_trans (Nat.dvd_of_mod_eq_zero hstep) (Nat.dvd_of_mod_eq_zero h1)
  exact absurd h2 (by have := h m; omega)

/-! ## Claim theorems -/

/-- Claim C9, as amended: the initial sort of the noise clusterers orders
histogram entries by count descending, and entries with equal count keep
their first-seen (histogram insertion) order — the sort is stable, so the
tie-break is insertion order, not ColorKey ascending. -/
theorem C9_sort_desc_stable :
    ∀ l : List Entry,
      ((sortDescBy (·.count) l).Pairwise fun a b => b.count ≤ a.count) ∧
      ∀ c : ℕ,
        (sortDescBy (·.count) l).filter (fun e => decide (e.count = c)) =
          l.filter (fun e => decide (e.count = c)) :=
  fun l => ⟨sortDescBy_pairwise (·.count) l, fun c => sortDescBy_filter (·.count) c l⟩

/-- Claim C9, counterexample: a histogram whose first-seen order on a count
tie is `#ff0000` before `#00ff00` sorts with `#ff0000` still first, although
ColorKey-ascending would put `#00ff00` (smaller key) first; the claimed
tie-break by ColorKey ascending is therefore false on the code. -/
theorem C9_counterexample :
    sortDescBy (·.count) (buildHistogram (sampleGT [255, 0, 0, 255, 0, 255, 0, 255] 4)) =
      [⟨⟨255, 0, 0⟩, 1⟩, ⟨⟨0, 255, 0⟩, 1⟩] ∧
    RGB.toKey ⟨0, 255, 0⟩ < RGB.toKey ⟨255, 0, 0⟩ ∧
    ¬ (sortDescBy (·.count)
        (buildHistogram (sampleGT [255, 0, 0, 255, 0, 255, 0, 255] 4))).Pairwise
        (fun a b => a.count = b.count → a.key.toKey ≤ b.key.toKey) := by
  refine ⟨by decide, by decide, ?_⟩
  intro hp
  rw [(by decide :
    sortDescBy (·.count) (buildHistogram (sampleGT [255, 0, 0, 255, 0, 255, 0, 255] 4)) =
      [⟨⟨255, 0, 0⟩, 1⟩, ⟨⟨0, 255, 0⟩, 1⟩])] at hp
  have := (List.pairwise_cons.mp hp).1 ⟨⟨0, 255, 0⟩, 1⟩ (by decide) rfl
  revert this
  decide

/-- Claim C10: the noise clusterer conserves total mass — the counts of the
clustered histogram sum to the number of alpha-passing samples, and hence
no single parent count can exceed that total. -/
theorem C10_mass_conservation :
    ∀ (close : RGB → RGB → Bool) (samples : List RGB),
      entrySum (clusterGen close (buildHistogram samples)) = samples.length ∧
      ∀ p ∈ clusterGen close (buildHistogram samples), p.count ≤ samples.length := by
  intro close samples
  have hsum : entrySum (clusterGen close (buildHistogram samples)) = samples.length := by
    rw [clusterGen_entrySum, buildHistogram_entrySum]
  refine ⟨hsum, fun p hp => ?_⟩
  have hle : p.count ≤ entrySum (clusterGen close (buildHistogram samples)) :=
    List.single_le_sum (by simp) _ (List.mem_map_of_mem (·.count) hp)
  rwa [hsum] at hle

/-- Claim C10, witness at a one-pixel sample list. -/
theorem C10_mass_conservation_witness :
    entrySum (clusterGen closeAll (buildHistogram [⟨255, 0, 0⟩])) = 1 ∧
      (⟨⟨255, 0, 0⟩, 1⟩ : Entry).count ≤ 1 :=
  ⟨(C10_mass_conservation closeAll [⟨255, 0, 0⟩]).1,
    (C10_mass_conservation closeAll [⟨255, 0, 0⟩]).2 ⟨⟨255, 0, 0⟩, 1⟩ (by decide)⟩

/-- Claim C4, as amended: the three-tier filter keeps an entry iff it
satisfies tier 1 or tier 2 or tier 3, first match winning with no double
count; in the 90% / 9% / 1% scenario the 90% and 9% entries are always
kept, and the 1% entry is kept iff its saturation is at least 0.10 (tier 2
already admits it at 0.5% population, so the claimed 0.35 bound is wrong). -/
theorem C4_tier_filter :
    (∀ s pct : ℚ, tierKept s pct = true ↔
      ((0.35 ≤ s ∧ 0.0001 ≤ pct) ∨ (0.1 ≤ s ∧ 0.005 ≤ pct) ∨ 0.015 ≤ pct)) ∧
    (∀ s : ℚ, tierKept s (9 / 10) = true ∧ tierKept s (9 / 100) = true ∧
      (tierKept s (1 / 100) = true ↔ 0.1 ≤ s)) := by
  have hiff : ∀ s pct : ℚ, tierKept s pct = true ↔
      ((0.35 ≤ s ∧ 0.0001 ≤ pct) ∨ (0.1 ≤ s ∧ 0.005 ≤ pct) ∨ 0.015 ≤ pct) := by
    intro s pct
    unfold tierKept
    split_ifs with h1 h2 h3
    · simpa using Or.inl h1
    · simpa using Or.inr (Or.inl h2)
    · simpa using Or.inr (Or.inr h3)
    · simp only [Bool.false_eq_true, false_iff]
      tauto
  refine ⟨hiff, fun s => ⟨?_, ?_, ?_⟩⟩
  · rw [hiff]
    right; right; norm_num
  · rw [hiff]
    right; right; norm_num
  · rw [hiff]
    constructor
    · rintro (⟨hs, _⟩ | ⟨hs, _⟩ | hp)
      · exact le_trans (by norm_num) hs
      · exact hs
      · exact absurd hp (by norm_num)
    · intro hs
      right; left
      exact ⟨hs, by norm_num⟩

/-- Claim C4, counterexample: a 1%-population entry with saturation 0.2 is
kept (tier 2: saturation at least 0.1, population at least 0.5%), so the
claimed biconditional with a 0.35 saturation floor fails. -/
theorem C4_counterexample :
    ¬ (tierKept (1 / 5) (1 / 100) = true ↔ (0.35 : ℚ) ≤ 1 / 5) := by
  intro h
  have h1 : tierKept (1 / 5) (1 / 100) = true := by norm_num [tierKept]
  have h2 := h.mp h1
  norm_num at h2

/-- Claim C7, as amended: where the source floors (the imghsl.ts noise
clusterer at threshold 5, the part_000 noise clusterer and final merge at
threshold 15), the decision indeed depends only on the floored distance:
two metrics with pointwise equal floors produce identical results.  The
compare.ts clustering and duplicate elimination and the centroid-path
merge compare raw distances instead (see the counterexample). -/
theorem C7_floor_only_dependence :
    ∀ d1 d2 : RGB → RGB → ℚ, (∀ a b, ⌊d1 a b⌋ = ⌊d2 a b⌋) →
      (∀ hist, ImgHSL.clusterNoise d1 hist = ImgHSL.clusterNoise d2 hist) ∧
      (∀ hist, Part000.clusterNoise d1 hist = Part000.clusterNoise d2 hist) ∧
      (∀ l, Part000.finalCluster d1 l = Part000.finalCluster d2 l) := by
  intro d1 d2 h
  refine ⟨fun hist => clusterGen_congr (fun a b => ?_) hist,
    fun hist => clusterGen_congr (fun a b => ?_) hist,
    fun l => greedyDedup_congr (fun a b => ?_) l⟩ <;> rw [h a b]

/-- Claim C7, witness: two constant metrics with equal floors (12 and 12.5)
give identical floored-site results. -/
theorem C7_floor_only_dependence_witness :
    ImgHSL.clusterNoise dTwelve [⟨⟨0, 0, 0⟩, 2⟩] =
      ImgHSL.clusterNoise dTwelveHalf [⟨⟨0, 0, 0⟩, 2⟩] ∧
    Part000.finalCluster dTwelve [⟨0, 0, 0⟩] =
      Part000.finalCluster dTwelveHalf [⟨0, 0, 0⟩] := by
  have h := C7_floor_only_dependence dTwelve dTwelveHalf
    (fun a b => by norm_num [dTwelve, dTwelveHalf, Int.floor_eq_iff])
  exact ⟨h.1 [⟨⟨0, 0, 0⟩, 2⟩], h.2.2 [⟨0, 0, 0⟩]⟩

/-- Claim C7, counterexample: the compare.ts noise clustering compares the
raw distance with no floor, so two distances with the same floor (12 and
12.5) lead to different merge decisions at threshold 12 — the decision
does not depend only on the floored distance. -/
theorem C7_counterexample :
    ⌊dTwelve ⟨0, 0, 1⟩ ⟨0, 0, 0⟩⌋ = ⌊dTwelveHalf ⟨0, 0, 1⟩ ⟨0, 0, 0⟩⌋ ∧
    Compare.clusterNoise dTwelve [⟨⟨0, 0, 0⟩, 2⟩, ⟨⟨0, 0, 1⟩, 1⟩] = [⟨⟨0, 0, 0⟩, 3⟩] ∧
    Compare.clusterNoise dTwelveHalf [⟨⟨0, 0, 0⟩, 2⟩, ⟨⟨0, 0, 1⟩, 1⟩] =
      [⟨⟨0, 0, 0⟩, 2⟩, ⟨⟨0, 0, 1⟩, 1⟩] := by
  refine ⟨by norm_num [dTwelve, dTwelveHalf, Int.floor_eq_iff], ?_, ?_⟩ <;>
    norm_num [Compare.clusterNoise, clusterGen, sortDescBy, insertDescBy, snapStep,
      dTwelve, dTwelveHalf, List.foldl]

theorem findIdx?_cons_eq {α : Type} (p : α → Bool) (x : α) (xs : List α) :
    (x :: xs).findIdx? p = if p x then some 0 else (xs.findIdx? p).map (· + 1) := by
  simp [List.findIdx?_cons]

theorem snapStep_of_findIdx_none (close : RGB → RGB → Bool) :
    ∀ (ps : List Entry) (e : Entry),
      ps.findIdx? (fun p => close e.key p.key) = none →
      snapStep close ps e = ps ++ [e]
  | [], e, _ => rfl
  | p :: ps, e, h => by
    rw [findIdx?_cons_eq] at h
    by_cases hc : close e.key p.key
    · rw [if_pos hc] at h
      exact absurd h (by simp)
    · rw [if_neg hc] at h
      have htail : ps.findIdx? (fun p => close e.key p.key) = none :=
        Option.map_eq_none'.mp h
      simp only [snapStep, if_neg hc, snapStep_of_findIdx_none close ps e htail,
        List.cons_append]

theorem snapStep_of_findIdx_some (close : RGB → RGB → Bool) :
    ∀ (ps : List Entry) (e : Entry) (i : ℕ) (pe : Entry),
      ps.findIdx? (fun p => close e.key p.key) = some i → ps[i]? = some pe →
      snapStep close ps e =
        ps.take i ++ { pe with count := pe.count + e.count } :: ps.drop (i + 1)
  | [], e, i, pe, h, _ => by
    rw [List.findIdx?_nil] at h
    exact absurd h (by simp)
  | p :: ps, e, i, pe, h, hget => by
    rw [findIdx?_cons_eq] at h
    by_cases hc : close e.key p.key
    · rw [if_pos hc] at h
      have hi : i = 0 := (Option.some.inj h).symm
      subst hi
      rw [List.getElem?_cons_zero] at hget
      have hpe : p = pe := Option.some.inj hget
      subst hpe
      simp [snapStep, hc]
    · rw [if_neg hc] at h
      obtain ⟨j, hj, hji⟩ := Option.map_eq_some'.mp h
      subst hji
      rw [List.getElem?_cons_succ] at hget
      have ih := snapStep_of_findIdx_some close ps e j pe hj hget
      simp only [snapStep, if_neg hc, ih, List.take_succ_cons, List.drop_succ_cons,
        List.cons_append]

/-- Claim C1: the noise clusterer processes entries in descending-count
order; each entry goes to the first parent (in creation order) the
closeness test accepts, adding its count there and leaving every other
parent untouched, and an entry matching no parent is appended as a new
parent.  In particular a histogram of 100 times `#FF0000` and once
`#FE0101`, whose perceptual distance is within the compare.ts threshold
12, clusters to the single entry `#FF0000 : 101`. -/
theorem C1_noise_clusterer_first_match :
    (∀ (close : RGB → RGB → Bool) (hist : List Entry),
      clusterGen close hist = (sortDescBy (·.count) hist).foldl (snapStep close) []) ∧
    (∀ (close : RGB → RGB → Bool) (ps : List Entry) (e : Entry),
      (ps.findIdx? (fun p => close e.key p.key) = none →
        snapStep close ps e = ps ++ [e]) ∧
      (∀ (i : ℕ) (pe : Entry),
        ps.findIdx? (fun p => close e.key p.key) = some i → ps[i]? = some pe →
        snapStep close ps e =
          ps.take i ++ { pe with count := pe.count + e.count } :: ps.drop (i + 1))) ∧
    (∀ d : RGB → RGB → ℚ, d ⟨254, 1, 1⟩ ⟨255, 0, 0⟩ ≤ 12 →
      Compare.clusterNoise d [⟨⟨255, 0, 0⟩, 100⟩, ⟨⟨254, 1, 1⟩, 1⟩] =
        [⟨⟨255, 0, 0⟩, 101⟩]) := by
  refine ⟨fun close hist => rfl,
    fun close ps e => ⟨snapStep_of_findIdx_none close ps e,
      fun i pe => snapStep_of_findIdx_some close ps e i pe⟩, ?_⟩
  intro d h
  have hd : decide (d ⟨254, 1, 1⟩ ⟨255, 0, 0⟩ ≤ 12) = true := decide_eq_true h
  simp [Compare.clusterNoise, clusterGen, sortDescBy, insertDescBy, snapStep, hd]

/-- Claim C1, witness: the scenario instance at the constantly-zero
distance, and the first-match characterization at a concrete parent list. -/
theorem C1_noise_clusterer_first_match_witness :
    Compare.clusterNoise dZero [⟨⟨255, 0, 0⟩, 100⟩, ⟨⟨254, 1, 1⟩, 1⟩] =
      [⟨⟨255, 0, 0⟩, 101⟩] ∧
    snapStep closeAll [⟨⟨9, 9, 9⟩, 4⟩] ⟨⟨8, 8, 8⟩, 3⟩ = [⟨⟨9, 9, 9⟩, 7⟩] :=
  ⟨C1_noise_clusterer_first_match.2.2 dZero (by norm_num [dZero]),
    by
      have h := (C1_noise_clusterer_first_match.2.1 closeAll
        [⟨⟨9, 9, 9⟩, 4⟩] ⟨⟨8, 8, 8⟩, 3⟩).2 0 ⟨⟨9, 9, 9⟩, 4⟩ (by decide) (by decide)
      simpa using h⟩

/-- Claim C3, as amended: after the greedy final merge of the histogram
path (part_000 and the imageprocess variants), every pair of surviving
colors has floored distance strictly above the merge threshold, for any
symmetric metric.  The centroid path does not have this invariant, because
its merge moves representatives after acceptance and compares raw
distances (see the counterexample). -/
theorem C3_curated_separation :
    (∀ (close : RGB → RGB → Bool) (l : List RGB),
      (greedyDedup close l).Pairwise fun x y => close y x = false) ∧
    (∀ d : RGB → RGB → ℚ, (∀ a b, d a b = d b a) → ∀ l : List RGB,
      (Part000.finalCluster d l).Pairwise fun x y => (15 : ℤ) < ⌊d x y⌋) := by
  refine ⟨greedyDedup_pairwise, fun d hsym l => ?_⟩
  have hp := greedyDedup_pairwise (fun c p => decide (⌊d c p⌋ ≤ (15 : ℤ))) l
  refine List.Pairwise.imp ?_ hp
  intro x y hxy
  have hnot : ¬ (⌊d y x⌋ ≤ (15 : ℤ)) := by simpa using hxy
  rw [hsym y x] at hnot
  exact not_le.mp hnot

/-- Claim C3, witness: the separation guarantee at a concrete symmetric
metric (red-channel difference) and color list. -/
theorem C3_curated_separation_witness :
    (Part000.finalCluster dRed [⟨0, 0, 0⟩, ⟨200, 0, 0⟩]).Pairwise
      (fun x y => (15 : ℤ) < ⌊dRed x y⌋) :=
  C3_curated_separation.2 dRed (fun a b => abs_sub_comm (a.r : ℚ) (b.r : ℚ))
    [⟨0, 0, 0⟩, ⟨200, 0, 0⟩]

/-- Claim C3, counterexample: on the centroid path, merging cluster
`L = 9` (population 9) into the accepted cluster `L = 0` (population 10)
moves the representative to `L = 81/19 ≈ 4.26`, leaving it at distance
`237/38 ≈ 6.2 < 10` from the other accepted cluster `L = 10.5`: the
curated output violates the claimed pairwise separation (the metric here
is the symmetric lightness difference). -/
theorem C3_counterexample :
    distLab ⟨81 / 19, 0, 0⟩ ⟨21 / 2, 0, 0⟩ = distLab ⟨21 / 2, 0, 0⟩ ⟨81 / 19, 0, 0⟩ ∧
    DetectSpot.curate distLab [⟨⟨0, 0, 0⟩, 10⟩, ⟨⟨21 / 2, 0, 0⟩, 9⟩, ⟨⟨9, 0, 0⟩, 9⟩] =
      [⟨⟨81 / 19, 0, 0⟩, 19⟩, ⟨⟨21 / 2, 0, 0⟩, 9⟩] ∧
    ¬ (DetectSpot.curate distLab
        [⟨⟨0, 0, 0⟩, 10⟩, ⟨⟨21 / 2, 0, 0⟩, 9⟩, ⟨⟨9, 0, 0⟩, 9⟩]).Pairwise
        (fun x y => (10 : ℤ) ≤ ⌊distLab x.lab y.lab⌋) := by
  have heval : DetectSpot.curate distLab
      [⟨⟨0, 0, 0⟩, 10⟩, ⟨⟨21 / 2, 0, 0⟩, 9⟩, ⟨⟨9, 0, 0⟩, 9⟩] =
      [⟨⟨81 / 19, 0, 0⟩, 19⟩, ⟨⟨21 / 2, 0, 0⟩, 9⟩] := by
    norm_num [DetectSpot.curate, DetectSpot.mergeCentroids, DetectSpot.mergeStep,
      DetectSpot.mergeInto, sortDescBy, insertDescBy, distLab, List.foldl,
      abs_le, abs_lt]
  refine ⟨by norm_num [distLab, abs_sub_comm], heval, ?_⟩
  rw [heval]
  intro hp
  have h1 := (List.pairwise_cons.mp hp).1 ⟨⟨21 / 2, 0, 0⟩, 9⟩ (by simp)
  have h2 : ⌊distLab ⟨81 / 19, 0, 0⟩ ⟨21 / 2, 0, 0⟩⌋ = (6 : ℤ) := by
    have habs : distLab ⟨81 / 19, 0, 0⟩ ⟨21 / 2, 0, 0⟩ = 237 / 38 := by
      show |(81 / 19 : ℚ) - 21 / 2| = 237 / 38
      rw [show (81 / 19 : ℚ) - 21 / 2 = -(237 / 38) by norm_num, abs_neg,
        abs_of_nonneg (by norm_num)]
    rw [habs]
    norm_num [Int.floor_eq_iff]
  rw [h2] at h1
  norm_num at h1

/-- Claim C5, as amended: on the centroid path a positive cap is honored —
the output is the unchanged initial segment of the population-sorted
curated list (never re-sorted), it has at most `numColors` entries, and
every kept cluster has population at least that of every dropped cluster.
The imghsl.ts SpotColor branch ignores `numColors` entirely (see the
counterexample). -/
theorem C5_cap_respected :
    ∀ (dist : Lab → Lab → ℚ) (filtered : List Cluster) (l2h : Lab → RGB) (n : ℕ),
      0 < n →
      (DetectSpot.finalizePalette l2h (DetectSpot.curate dist filtered)
        (some n)).length ≤ n ∧
      DetectSpot.finalizePalette l2h (DetectSpot.curate dist filtered) (some n) =
        (DetectSpot.finalizePalette l2h (DetectSpot.curate dist filtered) none).take n ∧
      ((DetectSpot.curate dist filtered).Pairwise fun x y => y.pop ≤ x.pop) ∧
      (∀ x ∈ (DetectSpot.curate dist filtered).take n,
        ∀ y ∈ (DetectSpot.curate dist filtered).drop n, y.pop ≤ x.pop) := by
  intro dist filtered l2h n hn
  have hp : (DetectSpot.curate dist filtered).Pairwise fun x y => y.pop ≤ x.pop := by
    simpa [DetectSpot.curate] using
      sortDescBy_pairwise (·.pop)
        (DetectSpot.mergeCentroids dist (sortDescBy (·.pop) filtered))
  refine ⟨?_, ?_, hp, ?_⟩
  · simp only [DetectSpot.finalizePalette, if_pos hn]
    rw [List.length_take, List.length_map]
    exact min_le_left _ _
  · simp [DetectSpot.finalizePalette, hn]
  · intro x hx y hy
    have hsplit : ((DetectSpot.curate dist filtered).take n ++
        (DetectSpot.curate dist filtered).drop n).Pairwise fun x y => y.pop ≤ x.pop := by
      rw [List.take_append_drop]
      exact hp
    exact (List.pairwise_append.mp hsplit).2.2 x hx y hy

/-- Claim C5, witness at a two-cluster curated list and cap 1. -/
theorem C5_cap_respected_witness :
    (DetectSpot.finalizePalette labToRgbZero
      (DetectSpot.curate distLab [⟨⟨0, 0, 0⟩, 3⟩, ⟨⟨90, 0, 0⟩, 2⟩]) (some 1)).length ≤ 1 ∧
    DetectSpot.finalizePalette labToRgbZero
      (DetectSpot.curate distLab [⟨⟨0, 0, 0⟩, 3⟩, ⟨⟨90, 0, 0⟩, 2⟩]) (some 1) =
      (DetectSpot.finalizePalette labToRgbZero
        (DetectSpot.curate distLab [⟨⟨0, 0, 0⟩, 3⟩, ⟨⟨90, 0, 0⟩, 2⟩]) none).take 1 ∧
    ((DetectSpot.curate distLab [⟨⟨0, 0, 0⟩, 3⟩, ⟨⟨90, 0, 0⟩, 2⟩]).Pairwise
      fun x y => y.pop ≤ x.pop) ∧
    (∀ x ∈ (DetectSpot.curate distLab [⟨⟨0, 0, 0⟩, 3⟩, ⟨⟨90, 0, 0⟩, 2⟩]).take 1,
      ∀ y ∈ (DetectSpot.curate distLab [⟨⟨0, 0, 0⟩, 3⟩, ⟨⟨90, 0, 0⟩, 2⟩]).drop 1,
        y.pop ≤ x.pop) :=
  C5_cap_respected distLab [⟨⟨0, 0, 0⟩, 3⟩, ⟨⟨90, 0, 0⟩, 2⟩] labToRgbZero 1
    (by norm_num)

/-- Claim C5, counterexample: the imghsl.ts SpotColor pipeline with
`numColors = 1` returns two entries for a two-color buffer whose colors
are far apart — the cap is ignored on that path. -/
theorem C5_counterexample :
    ImgHSL.getColorPalette dHundred quantizeModel "SpotColor"
      [255, 0, 0, 255, 0, 0, 255, 255] 1 = .ok [⟨255, 0, 0⟩, ⟨0, 0, 255⟩] ∧
    ¬ (([⟨255, 0, 0⟩, ⟨0, 0, 255⟩] : List RGB).length ≤ 1) := by
  have hs : sampleGT [255, 0, 0, 255, 0, 0, 255, 255] 4 =
      [⟨255, 0, 0⟩, ⟨0, 0, 255⟩] := by decide
  have hh : buildHistogram [⟨255, 0, 0⟩, ⟨0, 0, 255⟩] =
      [⟨⟨255, 0, 0⟩, 1⟩, ⟨⟨0, 0, 255⟩, 1⟩] := by decide
  have hfl : (⌊(100 : ℚ)⌋ : ℤ) = 100 := by norm_num [Int.floor_eq_iff]
  refine ⟨?_, by norm_num⟩
  simp only [ImgHSL.getColorPalette, hs, hh]
  norm_num [ImgHSL.clusterNoise, clusterGen, sortDescBy, insertDescBy, snapStep,
    dHundred, hfl, List.foldl]

/-- Claim C8, as amended: on the centroid path the merge representative is
the population-weighted LAB average of the two representatives — the
average equations hold exactly, and with positive populations and distinct
representatives the result differs from both originals.  On the histogram
path, however, a merge keeps the parent color unchanged: the key list of a
snap step is either the unchanged parent keys (merge) or the parent keys
with the new color appended — never an averaged color (see the
counterexample). -/
theorem C8_merge_weighted_average :
    (∀ m c : Cluster, 0 < m.pop → 0 < c.pop →
      ((DetectSpot.mergeInto m c).lab.l * ((m.pop : ℚ) + c.pop) =
          m.lab.l * m.pop + c.lab.l * c.pop ∧
        (DetectSpot.mergeInto m c).lab.a * ((m.pop : ℚ) + c.pop) =
          m.lab.a * m.pop + c.lab.a * c.pop ∧
        (DetectSpot.mergeInto m c).lab.b * ((m.pop : ℚ) + c.pop) =
          m.lab.b * m.pop + c.lab.b * c.pop) ∧
      (m.lab ≠ c.lab →
        (DetectSpot.mergeInto m c).lab ≠ m.lab ∧
        (DetectSpot.mergeInto m c).lab ≠ c.lab)) ∧
    (∀ (close : RGB → RGB → Bool) (ps : List Entry) (e : Entry),
      (snapStep close ps e).map (·.key) =
        if ps.any (fun p => close e.key p.key) then ps.map (·.key)
        else ps.map (·.key) ++ [e.key]) := by
  refine ⟨fun m c hm hc => ?_, snapStep_keys⟩
  have hmQ : (0 : ℚ) < m.pop := by exact_mod_cast hm
  have hcQ : (0 : ℚ) < c.pop := by exact_mod_cast hc
  have hden : ((m.pop : ℚ) + c.pop) ≠ 0 := ne_of_gt (add_pos hmQ hcQ)
  have havg : ∀ x y : ℚ,
      (x * m.pop + y * c.pop) / ((m.pop : ℚ) + c.pop) * ((m.pop : ℚ) + c.pop) =
        x * m.pop + y * c.pop := fun x y => div_mul_cancel₀ _ hden
  have compm : ∀ x y : ℚ,
      (x * m.pop + y * c.pop) / ((m.pop : ℚ) + c.pop) = x → y = x := by
    intro x y hxy
    have h1 : x * m.pop + y * c.pop = x * ((m.pop : ℚ) + c.pop) :=
      (div_eq_iff hden).mp hxy
    have h2 : y * (c.pop : ℚ) = x * c.pop := by ring_nf at h1 ⊢; linarith
    exact mul_right_cancel₀ (ne_of_gt hcQ) h2
  have compc : ∀ x y : ℚ,
      (x * m.pop + y * c.pop) / ((m.pop : ℚ) + c.pop) = y → x = y := by
    intro x y hxy
    have h1 : x * m.pop + y * c.pop = y * ((m.pop : ℚ) + c.pop) :=
      (div_eq_iff hden).mp hxy
    have h2 : x * (m.pop : ℚ) = y * m.pop := by ring_nf at h1 ⊢; linarith
    exact mul_right_cancel₀ (ne_of_gt hmQ) h2
  refine ⟨⟨havg _ _, havg _ _, havg _ _⟩, fun hne => ⟨?_, ?_⟩⟩
  · intro heq
    apply hne
    have hl : (m.lab.l * m.pop + c.lab.l * c.pop) / ((m.pop : ℚ) + c.pop) = m.lab.l :=
      congrArg Lab.l heq
    have ha : (m.lab.a * m.pop + c.lab.a * c.pop) / ((m.pop : ℚ) + c.pop) = m.lab.a :=
      congrArg Lab.a heq
    have hb : (m.lab.b * m.pop + c.lab.b * c.pop) / ((m.pop : ℚ) + c.pop) = m.lab.b :=
      congrArg Lab.b heq
    exact Lab.ext (compm _ _ hl).symm (compm _ _ ha).symm (compm _ _ hb).symm
  · intro heq
    apply hne
    have hl : (m.lab.l * m.pop + c.lab.l * c.pop) / ((m.pop : ℚ) + c.pop) = c.lab.l :=
      congrArg Lab.l heq
    have ha : (m.lab.a * m.pop + c.lab.a * c.pop) / ((m.pop : ℚ) + c.pop) = c.lab.a :=
      congrArg Lab.a heq
    have hb : (m.lab.b * m.pop + c.lab.b * c.pop) / ((m.pop : ℚ) + c.pop) = c.lab.b :=
      congrArg Lab.b heq
    exact Lab.ext (compc _ _ hl) (compc _ _ ha) (compc _ _ hb)

/-- Claim C8, witness: merging two unit-population clusters at distinct
LAB points produces a representative different from both. -/
theorem C8_merge_weighted_average_witness :
    ((DetectSpot.mergeInto ⟨⟨0, 0, 0⟩, 1⟩ ⟨⟨1, 0, 0⟩, 1⟩).lab ≠ ⟨0, 0, 0⟩) ∧
    ((DetectSpot.mergeInto ⟨⟨0, 0, 0⟩, 1⟩ ⟨⟨1, 0, 0⟩, 1⟩).lab ≠ ⟨1, 0, 0⟩) :=
  (C8_merge_weighted_average.1 ⟨⟨0, 0, 0⟩, 1⟩ ⟨⟨1, 0, 0⟩, 1⟩ (by norm_num)
    (by norm_num)).2
    (by intro h; exact absurd (congrArg Lab.l h) (by norm_num))

/-- Claim C8, counterexample: in the compare.ts noise clustering a merge
keeps the parent representative `#FF0000` unchanged — it is one of the two
original representatives, not the population-weighted average
`(170, 0, 85)` of `#FF0000` (count 2) and `#0000FF` (count 1). -/
theorem C8_counterexample :
    Compare.clusterNoise dZero [⟨⟨255, 0, 0⟩, 2⟩, ⟨⟨0, 0, 255⟩, 1⟩] =
      [⟨⟨255, 0, 0⟩, 3⟩] ∧
    (⟨255, 0, 0⟩ : RGB) ≠ ⟨170, 0, 85⟩ := by
  constructor
  · norm_num [Compare.clusterNoise, clusterGen, sortDescBy, insertDescBy, snapStep,
      dZero, List.foldl]
  · decide

/-- Claim C2, as amended: when no sampled pixel passes the alpha filter
(every alpha byte is below 128, which fails both the strict and the
non-strict threshold test), the variants with a zero-sample guard —
compare.ts, imghsl.ts, the first (hybrid) imageprocess3.ts
`getColorPalette`, part_000 and detectSpotColors — all return the empty
palette without an error, in every mode; the unguarded second
imageprocess3.ts `getColorPalette` still returns the empty palette on its
SpotColor branch.  The `getColorPalette` of `imageprocess.ts` (every
mode) and the second imageprocess3.ts variant (non-SpotColor modes) have
no such guard on their quantize branches and instead reject (see the
counterexample). -/
theorem C2_empty_input :
    ∀ (d : RGB → RGB → ℚ) (design : List RGB) (qF : QuantizeF) (mode : String)
      (n : ℕ) (r2l : RGB → Lab) (kF : KmeansF) (dist : Lab → Lab → ℚ)
      (l2h : Lab → RGB) (nc : Option ℕ) (data : List ℕ),
      (∀ i, data.getD (4 * i + 3) 0 < 128) →
      Compare.getColorPaletteHSL d design data = .ok [] ∧
      ImgHSL.getColorPalette d qF mode data n = .ok [] ∧
      ImageProcess3.getColorPalette d qF mode data n = .ok [] ∧
      Part000.getColorPaletteHSL d qF mode data n = .ok [] ∧
      DetectSpot.detectSpotColors r2l kF dist l2h mode data nc = [] ∧
      ImageProcess3B.getColorPalette d qF "SpotColor" data n = .ok [] := by
  intro d design qF mode n r2l kF dist l2h nc data h
  have h40 := sampleGT_eq_nil data 40 (by norm_num) h
  have h4 := sampleGT_eq_nil data 4 (by norm_num) h
  have h8 := sampleGT_eq_nil data 8 (by norm_num) h
  have h40e := sampleGE_eq_nil data 40 (by norm_num) h
  refine ⟨?_, ?_, ?_, ?_, ?_, ?_⟩
  · simp [Compare.getColorPaletteHSL, h40]
  · simp [ImgHSL.getColorPalette, h4]
  · simp [ImageProcess3.getColorPalette, h8]
  · simp [Part000.getColorPaletteHSL, h40]
  · by_cases hm : mode = "FullColor" <;>
      simp [DetectSpot.detectSpotColors, hm, h40e]
  · simp [ImageProcess3B.getColorPalette, h40, buildHistogram, greedyDedup, sortDescBy]

/-- Claim C2, witness: the empty buffer, on the SpotColor mode, with
concrete stand-ins for the external collaborators. -/
theorem C2_empty_input_witness :
    Compare.getColorPaletteHSL dZero [] [] = .ok [] ∧
    ImgHSL.getColorPalette dZero quantizeModel "SpotColor" [] 12 = .ok [] ∧
    ImageProcess3.getColorPalette dZero quantizeModel "SpotColor" [] 12 = .ok [] ∧
    Part000.getColorPaletteHSL dZero quantizeModel "SpotColor" [] 12 = .ok [] ∧
    DetectSpot.detectSpotColors rgbToLabZero kmeansNone distLab labToRgbZero
      "SpotColor" [] none = [] ∧
    ImageProcess3B.getColorPalette dZero quantizeModel "SpotColor" [] 12 = .ok [] :=
  C2_empty_input dZero [] quantizeModel "SpotColor" 12 rgbToLabZero kmeansNone
    distLab labToRgbZero none [] (fun i => by simp [List.getD_nil])

/-- Claim C2, counterexample: a fully transparent one-pixel buffer yields
zero samples, yet `getColorPalette` of `imageprocess.ts` (every mode) and
the second staged `getColorPalette` of `imageprocess3.ts` (here in
FullColor mode) reject with the quantize failure instead of returning an
empty palette, because they call the quantizer before any emptiness
check. -/
theorem C2_counterexample :
    sampleGT [0, 0, 0, 0] 40 = [] ∧
    ImageProcess.getColorPalette dZero quantizeModel "SpotColor" [0, 0, 0, 0] 12 =
      .error "Failed to quantize colors" ∧
    ImageProcess3B.getColorPalette dZero quantizeModel "FullColor" [0, 0, 0, 0] 12 =
      .error "Failed to quantize colors" := by
  have hs : sampleGT [0, 0, 0, 0] 40 = [] := by decide
  refine ⟨hs, ?_, ?_⟩
  · simp [ImageProcess.getColorPalette, hs, quantizeModel]
  · simp [ImageProcess3B.getColorPalette, hs, quantizeModel]

/-- Claim C6: the embedded pipelines are pure functions of the pixel
buffer, the mode and the configuration (the external quantize, k-means,
color conversion and distance collaborators are fixed function
parameters): two calls on buffers with identical byte content return
identical output.  This covers the deployed entry point
(`imghsl.getColorPalette`, both modes), the compare.ts variant, and the
centroid path for a fixed k-means run. -/
theorem C6_determinism :
    ∀ (d : RGB → RGB → ℚ) (design : List RGB) (qF : QuantizeF) (mode : String)
      (n : ℕ) (r2l : RGB → Lab) (kF : KmeansF) (dist : Lab → Lab → ℚ)
      (l2h : Lab → RGB) (nc : Option ℕ) (data1 data2 : List ℕ),
      data1.length = data2.length → (∀ i, data1.getD i 0 = data2.getD i 0) →
      Compare.getColorPaletteHSL d design data1 =
        Compare.getColorPaletteHSL d design data2 ∧
      ImgHSL.getColorPalette d qF mode data1 n =
        ImgHSL.getColorPalette d qF mode data2 n ∧
      DetectSpot.detectSpotColors r2l kF dist l2h mode data1 nc =
        DetectSpot.detectSpotColors r2l kF dist l2h mode data2 nc := by
  intro d design qF mode n r2l kF dist l2h nc data1 data2 hlen hgd
  have hdata : data1 = data2 := by
    apply List.ext_getElem hlen
    intro i h1 h2
    have hi := hgd i
    rwa [List.getD_eq_getElem?_getD, List.getD_eq_getElem?_getD,
      List.getElem?_eq_getElem h1, List.getElem?_eq_getElem h2,
      Option.getD_some, Option.getD_some] at hi
  rw [hdata]
  exact ⟨rfl, rfl, rfl⟩

/-- Claim C6, witness at a concrete one-pixel buffer. -/
theorem C6_determinism_witness :
    Compare.getColorPaletteHSL dZero [] [255, 0, 0, 255] =
      Compare.getColorPaletteHSL dZero [] [255, 0, 0, 255] ∧
    ImgHSL.getColorPalette dZero quantizeModel "SpotColor" [255, 0, 0, 255] 12 =
      ImgHSL.getColorPalette dZero quantizeModel "SpotColor" [255, 0, 0, 255] 12 ∧
    DetectSpot.detectSpotColors rgbToLabZero kmeansNone distLab labToRgbZero
        "SpotColor" [255, 0, 0, 255] none =
      DetectSpot.detectSpotColors rgbToLabZero kmeansNone distLab labToRgbZero
        "SpotColor" [255, 0, 0, 255] none :=
  C6_determinism dZero [] quantizeModel "SpotColor" 12 rgbToLabZero kmeansNone
    distLab labToRgbZero none [255, 0, 0, 255] [255, 0, 0, 255] rfl (fun _ => rfl)
